import Mathlib

/-!
Verification of the utility module `seq2seq/utils/utils.py`.

The module is shallowly embedded: path manipulation and string parsing are
translated to pure Lean functions; the shell and file-system side effects of
each routine are made explicit, either as the list of shell commands issued
(`upload`) or as a list of `Effect` values (`save_json_file`,
`handle_metrics`, `create_dir`); a Python exception is an `Except.error`.
The model object manipulated by `freezing_params` is embedded as a list of
parameters, each carrying its `requires_grad` flag together with the
membership tags (which controller submodules contain it, whether it lies in
the encoder, the lm_head, and so on) that the Python code queries through
`isinstance` checks and attribute access.
-/

namespace SeqUtils

/-- Structurally recursive `startswith` on the character lists of the two
strings (the core library's `String.startsWith` is loop-based and does not
reduce in the kernel). -/
def strStartsWith (s pre : String) : Bool :=
  List.isPrefixOf pre.data s.data

/-- Structurally recursive `endswith` on the character lists of the two
strings. -/
def strEndsWith (s post : String) : Bool :=
  List.isPrefixOf post.data.reverse s.data.reverse

/-- Embedding of `os.path.join(a, b)` for a single extra component (POSIX
rules): an absolute second component replaces the first, otherwise the two
are joined with a separator unless one is already present. -/
def osPathJoin (a b : String) : String :=
  if strStartsWith b "/" then b
  else if a = "" || strEndsWith a "/" then a ++ b
  else a ++ "/" ++ b

/-- Decidable equality of `Except` results, for evaluating the embedded
routines at concrete inputs. -/
instance {ε α : Type} [DecidableEq ε] [DecidableEq α] : DecidableEq (Except ε α) :=
  fun x y =>
    match x, y with
    | Except.ok a, Except.ok b =>
        if h : a = b then isTrue (by rw [h])
        else isFalse (by intro hh; cases hh; exact h rfl)
    | Except.error a, Except.error b =>
        if h : a = b then isTrue (by rw [h])
        else isFalse (by intro hh; cases hh; exact h rfl)
    | Except.ok _, Except.error _ => isFalse (by intro hh; cases hh)
    | Except.error _, Except.ok _ => isFalse (by intro hh; cases hh)

/-! ### The `upload` routine

`upload(upload_dir, gcs_bucket)` runs, inside a `try` block,
`os.system("/root/google-cloud-sdk/bin/gsutil -m rm -r <target>")` (status
unused) and `os.system("/root/google-cloud-sdk/bin/gsutil -m cp -r
<upload_dir> <target>")`, raising `Exception('gsutil path not found')` when
the copy status is nonzero; the bare `except:` then reruns the remove and the
copy through plain `gsutil`, ignoring both statuses.  The embedding takes the
ambient shell as a function `sys : String → Int` from command line to exit
status and returns the list of commands issued together with the
(`Except`-valued) outcome of the call. -/

/-- Remote target `os.path.join("gs://" + gcs_bucket, upload_dir)`. -/
def gsTarget (upload_dir gcs_bucket : String) : String :=
  osPathJoin ("gs://" ++ gcs_bucket) upload_dir

/-- The remove command of the primary attempt (absolute tool path). -/
def absRmCmd (upload_dir gcs_bucket : String) : String :=
  "/root/google-cloud-sdk/bin/gsutil -m rm -r " ++ gsTarget upload_dir gcs_bucket

/-- The copy command of the primary attempt (absolute tool path). -/
def absCpCmd (upload_dir gcs_bucket : String) : String :=
  "/root/google-cloud-sdk/bin/gsutil -m cp -r " ++ upload_dir ++ " " ++
    gsTarget upload_dir gcs_bucket

/-- The remove command of the fallback attempt (tool from the search path). -/
def plainRmCmd (upload_dir gcs_bucket : String) : String :=
  "gsutil -m rm -r " ++ gsTarget upload_dir gcs_bucket

/-- The copy command of the fallback attempt (tool from the search path). -/
def plainCpCmd (upload_dir gcs_bucket : String) : String :=
  "gsutil -m cp -r " ++ upload_dir ++ " " ++ gsTarget upload_dir gcs_bucket

/-- The `try` block of `upload`: issues the absolute-path remove (status
discarded), then the absolute-path copy; raises iff the copy status is
nonzero.  Returns the commands issued and the outcome. -/
def uploadTry (sys : String → Int) (upload_dir gcs_bucket : String) :
    List String × Except String Unit :=
  let _rm_status := sys (absRmCmd upload_dir gcs_bucket)
  if sys (absCpCmd upload_dir gcs_bucket) ≠ 0 then
    ([absRmCmd upload_dir gcs_bucket, absCpCmd upload_dir gcs_bucket],
      Except.error "gsutil path not found")
  else
    ([absRmCmd upload_dir gcs_bucket, absCpCmd upload_dir gcs_bucket],
      Except.ok ())

/-- The `except:` block of `upload`: the plain-named remove then copy, with
both exit statuses discarded. -/
def uploadFallback (upload_dir gcs_bucket : String) : List String :=
  [plainRmCmd upload_dir gcs_bucket, plainCpCmd upload_dir gcs_bucket]

/-- Embedding of `upload`: the `try` block, and on any exception the
fallback block; the exception is swallowed by the bare `except:`. -/
def upload (sys : String → Int) (upload_dir gcs_bucket : String) :
    List String × Except String Unit :=
  match uploadTry sys upload_dir gcs_bucket with
  | (tr, Except.ok _) => (tr, Except.ok ())
  | (tr, Except.error _) =>
      (tr ++ uploadFallback upload_dir gcs_bucket, Except.ok ())

/-- C1 counterexample: the claim asserts that the fallback invocation is
performed exactly when the first attempt fails, failure including a nonzero
exit status of the first remove command alone; but when the primary remove
exits nonzero while the primary copy exits 0, `upload` issues no fallback
command, so the claimed equivalence is false. -/
theorem upload_fallback_claim_false :
    ¬ (∀ (sys : String → Int) (d b : String),
        (plainRmCmd d b ∈ (upload sys d b).1 ∧ plainCpCmd d b ∈ (upload sys d b).1) ↔
          (sys (absRmCmd d b) ≠ 0 ∨ sys (absCpCmd d b) ≠ 0)) := by
  intro h
  have h2 := (h (fun c => if c = absRmCmd "d" "b" then 1 else 0) "d" "b").2
    (Or.inl (by decide))
  have h3 : ¬ (plainRmCmd "d" "b" ∈
      (upload (fun c => if c = absRmCmd "d" "b" then 1 else 0) "d" "b").1) := by
    decide
  exact h3 h2.1

/-- C1 (amended): the fallback remove-then-copy through the plain-named
`gsutil` is performed exactly when the primary copy command exits with a
nonzero status; the exit status of the primary remove command plays no role. -/
theorem upload_fallback_iff_primary_cp_fails (sys : String → Int) (d b : String) :
    (upload sys d b).1 =
      if sys (absCpCmd d b) = 0 then [absRmCmd d b, absCpCmd d b]
      else [absRmCmd d b, absCpCmd d b, plainRmCmd d b, plainCpCmd d b] := by
  by_cases h : sys (absCpCmd d b) = 0 <;>
    simp [upload, uploadTry, uploadFallback, h]

/-- C2: `upload` never propagates an exception: its outcome is `Except.ok ()`
for every shell environment, and whenever the `try` block raised, the trace
is extended by exactly the two fallback commands (whose statuses are never
consulted), after which the routine still returns normally. -/
theorem upload_swallows_all_errors (sys : String → Int) (d b : String) :
    (upload sys d b).2 = Except.ok () ∧
    (∀ e, (uploadTry sys d b).2 = Except.error e →
      (upload sys d b).1 = (uploadTry sys d b).1 ++ uploadFallback d b) := by
  by_cases h : sys (absCpCmd d b) = 0 <;>
    simp [upload, uploadTry, uploadFallback, h]

/-- C2 witness: under a shell in which every command exits with status 1 the
`try` block raises, yet `upload` returns normally after issuing the fallback
commands. -/
theorem upload_swallows_all_errors_witness :
    (upload (fun _ => 1) "d" "b").2 = Except.ok () ∧
    (upload (fun _ => 1) "d" "b").1 =
      (uploadTry (fun _ => 1) "d" "b").1 ++ uploadFallback "d" "b" :=
  ⟨(upload_swallows_all_errors (fun _ => 1) "d" "b").1,
    (upload_swallows_all_errors (fun _ => 1) "d" "b").2 "gsutil path not found"
      (by decide)⟩

/-- C3: in every run of `upload`, the commands issued are either the primary
remove followed by the primary copy, or those two followed by the fallback
remove and then the fallback copy: in each attempt the recursive remove of
the remote path strictly precedes the recursive copy to it. -/
theorem upload_remove_before_copy (sys : String → Int) (d b : String) :
    (upload sys d b).1 = [absRmCmd d b, absCpCmd d b] ∨
    (upload sys d b).1 =
      [absRmCmd d b, absCpCmd d b, plainRmCmd d b, plainCpCmd d b] := by
  by_cases h : sys (absCpCmd d b) = 0
  · left
    simp [upload, uploadTry, h]
  · right
    simp [upload, uploadTry, uploadFallback, h]

/-! ### JSON persistence and metrics logging

`save_json_file` and `handle_metrics` only perform side effects; they are
embedded as functions returning the list of effects performed, in order.  A
dictionary is an association list of string keys and string values. -/

/-- An observable side effect of the JSON persistence routines. -/
inductive Effect where
  | logInfo (msg : String)
  | writeJson (payload : List (String × String)) (path : String)
  | uploadDir (dir bucket : String)
  deriving DecidableEq, Repr

/-- Modelled from the spec: `third_party.utils.save_json` (imported by the
module but not part of the sources) writes the given dictionary as a JSON
file at the given path. -/
def save_json (json_dict : List (String × String)) (path : String) : List Effect :=
  [Effect.writeJson json_dict path]

/-- Embedding of `save_json_file`: saves the dictionary at
`os.path.join(output_dir, outfile_name)` and, when a bucket is given, logs
and calls `upload(output_dir, gcs_bucket)`. -/
def save_json_file (json_dict : List (String × String)) (outfile_name output_dir : String)
    (gcs_bucket : Option String) : List Effect :=
  save_json json_dict (osPathJoin output_dir outfile_name) ++
    match gcs_bucket with
    | some b =>
        [Effect.logInfo "***** Uploading results into gs-bucket *****",
         Effect.uploadDir output_dir b]
    | none => []

/-- Insertion of a string into a sorted list of strings, used to embed
Python's `sorted`. -/
def insertSorted (x : String) : List String → List String
  | [] => [x]
  | y :: ys => if x ≤ y then x :: y :: ys else y :: insertSorted x ys

/-- Insertion sort on strings, embedding Python's `sorted` (lexicographic by
code point, as Python's default string order). -/
def sortStrings : List String → List String
  | [] => []
  | x :: xs => insertSorted x (sortStrings xs)

/-- Dictionary access `metrics[key]`; for keys drawn from the dictionary
itself the default is never used. -/
def lookupD (d : List (String × String)) (k : String) : String :=
  match d.lookup k with
  | some v => v
  | none => ""

/-- Embedding of `handle_metrics`: logs a header and each key of the metrics
dictionary in sorted order, then delegates to `save_json_file` with the file
name `<split>_results.json`. -/
def handle_metrics (split : String) (metrics : List (String × String))
    (output_dir : String) (gcs_bucket : Option String) : List Effect :=
  Effect.logInfo ("***** " ++ split ++ " metrics *****") ::
    ((sortStrings (metrics.map Prod.fst)).map
        (fun k => Effect.logInfo ("  " ++ k ++ " = " ++ lookupD metrics k)) ++
      save_json_file metrics (split ++ "_results.json") output_dir gcs_bucket)

/-- Embedding of `create_dir`: returns the list of `os.makedirs` calls
issued, given the ambient `os.path.exists` predicate. -/
def create_dir (path_exists : String → Bool) (output_dir : String) : List String :=
  if !(path_exists output_dir) then [output_dir] else []

/-- C6: `save_json_file` writes the dictionary at the join of the output
directory and the file name; it performs an upload of the output directory
to the bucket exactly when a bucket is given; and `handle_metrics` consists
of log messages followed by `save_json_file` applied to the metrics with the
file name `<split>_results.json`. -/
theorem save_json_file_spec (jd : List (String × String)) (name dir : String)
    (gb : Option String) (split : String) (metrics : List (String × String)) :
    Effect.writeJson jd (osPathJoin dir name) ∈ save_json_file jd name dir gb ∧
    ((∃ b, gb = some b ∧ Effect.uploadDir dir b ∈ save_json_file jd name dir gb) ↔
      gb ≠ none) ∧
    (∃ pre, handle_metrics split metrics dir gb =
        pre ++ save_json_file metrics (split ++ "_results.json") dir gb ∧
      ∀ e ∈ pre, ∃ msg, e = Effect.logInfo msg) := by
  refine ⟨by simp [save_json_file, save_json], ?_, ?_⟩
  · cases gb with
    | none => simp [save_json_file, save_json]
    | some b => simp [save_json_file, save_json]
  · refine ⟨Effect.logInfo ("***** " ++ split ++ " metrics *****") ::
      (sortStrings (metrics.map Prod.fst)).map
        (fun k => Effect.logInfo ("  " ++ k ++ " = " ++ lookupD metrics k)), ?_, ?_⟩
    · simp [handle_metrics]
    · intro e he
      rcases List.mem_cons.mp he with h | h
      · exact ⟨_, h⟩
      · rcases List.mem_map.mp h with ⟨k, _, hk⟩
        exact ⟨_, hk.symm⟩

/-- C6 witness: the json write of a concrete dictionary lands at the joined
path. -/
theorem save_json_file_witness :
    Effect.writeJson [("a", "1")] (osPathJoin "out" "f.json") ∈
      save_json_file [("a", "1")] "f.json" "out" none :=
  (save_json_file_spec [("a", "1")] "f.json" "out" none "val" []).1

/-! ### Checkpoint-path discovery

`get_last_checkpoint_path` globs `os.path.join(output_dir, "checkpoint-*")`,
returns `output_dir` when nothing matches, and otherwise parses the text
after the last `'-'` of each match as a Python `int` and returns
`os.path.join(output_dir, "checkpoint-" + str(max))`.  The embedding takes
the directory listing of `output_dir` (a list of entry names) as input; the
glob keeps the entries that start with `checkpoint-` (a `*` never matches a
path separator). -/

/-- Digit run of a Python `int` literal after its first digit: digits with
single underscores allowed between digits, accumulating the value. -/
def pyDigitsAux (acc : Nat) : List Char → Option Nat
  | [] => some acc
  | '_' :: c :: cs => if c.isDigit then pyDigitsAux (10 * acc + (c.toNat - 48)) cs else none
  | c :: cs => if c.isDigit then pyDigitsAux (10 * acc + (c.toNat - 48)) cs else none

/-- Digit run of a Python `int` literal: nonempty, starts with a digit. -/
def pyDigits : List Char → Option Nat
  | [] => none
  | c :: cs => if c.isDigit then pyDigitsAux (c.toNat - 48) cs else none

/-- Whitespace stripping of Python's `int(str)` conversion. -/
def pyStrip (s : List Char) : List Char :=
  ((s.dropWhile Char.isWhitespace).reverse.dropWhile Char.isWhitespace).reverse

/-- Embedding of Python's `int(s)`: strip whitespace, optional sign, decimal
digits with single underscores between digits; `none` when the conversion
raises `ValueError`. -/
def pyInt (s : String) : Option Int :=
  match pyStrip s.data with
  | '+' :: rest => (pyDigits rest).map (fun n => (n : Int))
  | '-' :: rest => (pyDigits rest).map (fun n => -(n : Int))
  | cs => (pyDigits cs).map (fun n => (n : Int))

/-- The text after the last `'-'` of the string (the whole string when it
has no `'-'`): this is `s.split('-')[-1]` in Python. -/
def lastDashSegment (s : String) : String :=
  String.mk ((s.data.reverse.takeWhile (fun c => c ≠ '-')).reverse)

/-- The entries of the directory listing matched by the glob pattern
`checkpoint-*`. -/
def checkpointMatches (entries : List String) : List String :=
  entries.filter fun e => strStartsWith e "checkpoint-" && !(e.data.contains '/')

/-- The full paths returned by
`glob.glob(os.path.join(output_dir, "checkpoint-*"))`. -/
def checkpointPaths (output_dir : String) (entries : List String) : List String :=
  (checkpointMatches entries).map (fun e => osPathJoin output_dir e)

/-- The list comprehension
`[int(checkpoint.split('-')[-1]) for checkpoint in paths]`: evaluated left
to right, raising `ValueError` at the first suffix that does not parse. -/
def parseCheckpoints : List String → Except String (List Int)
  | [] => Except.ok []
  | p :: ps =>
    match pyInt (lastDashSegment p) with
    | none => Except.error "ValueError"
    | some n =>
      match parseCheckpoints ps with
      | Except.error e => Except.error e
      | Except.ok ns => Except.ok (n :: ns)

/-- Python's `max` on a nonempty list (the empty case is never reached). -/
def maxList : List Int → Int
  | [] => 0
  | x :: xs => xs.foldl max x

/-- Embedding of `get_last_checkpoint_path` over the directory listing of
`output_dir`. -/
def get_last_checkpoint_path (output_dir : String) (entries : List String) :
    Except String String :=
  let paths := checkpointPaths output_dir entries
  if paths.length = 0 then Except.ok output_dir
  else
    match parseCheckpoints paths with
    | Except.error e => Except.error e
    | Except.ok ns =>
        Except.ok (osPathJoin output_dir ("checkpoint-" ++ toString (maxList ns)))

lemma parseCheckpoints_ok_of_all_some (l : List String)
    (h : ∀ p ∈ l, pyInt (lastDashSegment p) ≠ none) :
    parseCheckpoints l =
      Except.ok (l.filterMap (fun p => pyInt (lastDashSegment p))) := by
  induction l with
  | nil => simp [parseCheckpoints]
  | cons p ps ih =>
    have hp := h p (List.mem_cons_self p ps)
    rcases hn : pyInt (lastDashSegment p) with _ | n
    · exact absurd hn hp
    · have hps := ih (fun q hq => h q (List.mem_cons_of_mem _ hq))
      simp [parseCheckpoints, hn, hps]

lemma parseCheckpoints_error_of_some_none (l : List String)
    (h : ∃ p ∈ l, pyInt (lastDashSegment p) = none) :
    ∃ e, parseCheckpoints l = Except.error e := by
  induction l with
  | nil => simp at h
  | cons p ps ih =>
    rcases hn : pyInt (lastDashSegment p) with _ | n
    · exact ⟨"ValueError", by simp [parseCheckpoints, hn]⟩
    · rcases h with ⟨q, hq, hqn⟩
      rcases List.mem_cons.mp hq with rfl | hq'
      · rw [hn] at hqn; cases hqn
      · rcases ih ⟨q, hq', hqn⟩ with ⟨e, he⟩
        exact ⟨e, by simp [parseCheckpoints, hn, he]⟩

/-- C8: `get_last_checkpoint_path` returns `output_dir` when nothing matches
the glob; when every matched path's text after its last `'-'` parses as a
Python int, it returns the join of `output_dir` and `checkpoint-` followed
by the maximum of those parses; and it raises as soon as some matched path's
suffix does not parse. -/
theorem get_last_checkpoint_path_spec (output_dir : String) (entries : List String) :
    (checkpointPaths output_dir entries = [] →
      get_last_checkpoint_path output_dir entries = Except.ok output_dir) ∧
    ((∀ p ∈ checkpointPaths output_dir entries, pyInt (lastDashSegment p) ≠ none) →
      checkpointPaths output_dir entries ≠ [] →
      get_last_checkpoint_path output_dir entries = Except.ok
        (osPathJoin output_dir ("checkpoint-" ++
          toString (maxList ((checkpointPaths output_dir entries).filterMap
            (fun p => pyInt (lastDashSegment p))))))) ∧
    ((∃ p ∈ checkpointPaths output_dir entries, pyInt (lastDashSegment p) = none) →
      ∃ e, get_last_checkpoint_path output_dir entries = Except.error e) := by
  refine ⟨?_, ?_, ?_⟩
  · intro h
    simp [get_last_checkpoint_path, h]
  · intro hall hne
    have hok := parseCheckpoints_ok_of_all_some _ hall
    have hlen : (checkpointPaths output_dir entries).length ≠ 0 := by
      simpa [List.length_eq_zero] using hne
    simp [get_last_checkpoint_path, hlen, hok]
  · intro hex
    rcases parseCheckpoints_error_of_some_none _ hex with ⟨e, he⟩
    have hne : checkpointPaths output_dir entries ≠ [] := by
      intro hnil
      rw [hnil] at hex
      simp at hex
    have hlen : (checkpointPaths output_dir entries).length ≠ 0 := by
      simpa [List.length_eq_zero] using hne
    exact ⟨e, by simp [get_last_checkpoint_path, hlen, he]⟩

/-- C8 witness: on the listing `["checkpoint-x"]` the matched path's suffix
`x` does not parse as an int, so the routine raises. -/
theorem get_last_checkpoint_path_witness :
    ∃ e, get_last_checkpoint_path "out" ["checkpoint-x"] = Except.error e :=
  (get_last_checkpoint_path_spec "out" ["checkpoint-x"]).2.2 (by decide)

/-! ### Concatenation of training arguments

A Python dictionary (and the `asdict` image of a dataclass) is embedded
extensionally as a partial map from keys to values; `dict.update` overrides,
`dict.pop(key)` removes the key and raises `KeyError` when it is absent. -/

/-- A Python dictionary with string keys. -/
abbrev PyDict (V : Type) := String → Option V

/-- Embedding of `d.update(e)`: keys of `e` override those of `d`. -/
def dictUpdate {V : Type} (d e : PyDict V) : PyDict V :=
  fun k =>
    match e k with
    | some v => some v
    | none => d k

/-- The `all_arguments` dictionary after the `for` loop of
`get_training_args`: the empty dictionary updated with each element in
order. -/
def mergedArgs {V : Type} (l : List (PyDict V)) : PyDict V :=
  l.foldl dictUpdate (fun _ => none)

/-- Embedding of `d.pop(key)` (no default): raises `KeyError` when the key
is absent, otherwise removes it. -/
def dictPop {V : Type} (d : PyDict V) (key : String) : Except String (PyDict V) :=
  match d key with
  | none => Except.error "KeyError"
  | some _ => Except.ok (fun k => if k = key then none else d k)

/-- Embedding of `get_training_args`: merge the field dictionaries of the
argument dataclasses in order, then pop `"evaluation_strategy"`. -/
def get_training_args {V : Type} (arguments_list : List (PyDict V)) :
    Except String (PyDict V) :=
  dictPop (mergedArgs arguments_list) "evaluation_strategy"

/-- The value for a key given by the last dictionary of the list that
defines it: the claim's reading of "a later element overrides an earlier
one". -/
def lastDefined {V : Type} (l : List (PyDict V)) (k : String) : Option V :=
  l.reverse.findSome? (fun d => d k)

lemma findSome?_append_singleton {α β : Type} (f : α → Option β) (xs : List α) (x : α) :
    List.findSome? f (xs ++ [x]) =
      match List.findSome? f xs with
      | some v => some v
      | none => f x := by
  induction xs with
  | nil =>
    simp only [List.nil_append, List.findSome?_cons, List.findSome?_nil]
    rcases f x with _ | v <;> simp
  | cons a l ih =>
    rcases ha : f a with _ | v <;> simp [List.findSome?_cons, ha, ih]

lemma mergedArgs_apply_aux {V : Type} (l : List (PyDict V)) (init : PyDict V) (k : String) :
    (l.foldl dictUpdate init) k =
      match lastDefined l k with
      | some v => some v
      | none => init k := by
  induction l generalizing init with
  | nil => simp [lastDefined, List.findSome?]
  | cons d t ih =>
    have hrev : lastDefined (d :: t) k =
        match lastDefined t k with
        | some v => some v
        | none => d k := by
      simp only [lastDefined, List.reverse_cons]
      exact findSome?_append_singleton (fun e => e k) t.reverse d
    rw [List.foldl_cons, ih, hrev]
    rcases lastDefined t k with _ | v
    · simp [dictUpdate]
    · simp

lemma mergedArgs_apply {V : Type} (l : List (PyDict V)) (k : String) :
    mergedArgs l k = lastDefined l k := by
  rw [mergedArgs, mergedArgs_apply_aux]
  rcases lastDefined l k with _ | v <;> simp

lemma lastDefined_eq_none_iff {V : Type} (l : List (PyDict V)) (k : String) :
    lastDefined l k = none ↔ ∀ d ∈ l, d k = none := by
  simp [lastDefined, List.findSome?_eq_none_iff]

/-- C9: `get_training_args` merges the field dictionaries with later
elements overriding earlier ones and removes `"evaluation_strategy"`; it
raises `KeyError` exactly when no element of the list defines that field
(in particular on the empty list). -/
theorem get_training_args_spec {V : Type} (l : List (PyDict V)) :
    ((∃ d ∈ l, d "evaluation_strategy" ≠ none) →
      ∃ r, get_training_args l = Except.ok r ∧
        r "evaluation_strategy" = none ∧
        ∀ k, k ≠ "evaluation_strategy" → r k = lastDefined l k) ∧
    ((∀ d ∈ l, d "evaluation_strategy" = none) →
      get_training_args l = Except.error "KeyError") := by
  constructor
  · intro hex
    have hsome : mergedArgs l "evaluation_strategy" ≠ none := by
      rw [mergedArgs_apply]
      intro hn
      rcases hex with ⟨d, hd, hdn⟩
      exact hdn ((lastDefined_eq_none_iff l _).mp hn d hd)
    rcases hm : mergedArgs l "evaluation_strategy" with _ | v
    · exact absurd hm hsome
    · refine ⟨fun k => if k = "evaluation_strategy" then none else mergedArgs l k,
        by simp [get_training_args, dictPop, hm], by simp, ?_⟩
      intro k hk
      simp [hk, mergedArgs_apply]
  · intro hall
    have hn : mergedArgs l "evaluation_strategy" = none := by
      rw [mergedArgs_apply]
      exact (lastDefined_eq_none_iff l _).mpr hall
    simp [get_training_args, dictPop, hn]

/-- C9 witness: a single dataclass defining the field gives a successful
merge with the field removed. -/
theorem get_training_args_witness :
    ∃ r, get_training_args
        [fun k => if k = "evaluation_strategy" then some 1 else none] = Except.ok r ∧
      r "evaluation_strategy" = none ∧
      ∀ k, k ≠ "evaluation_strategy" →
        r k = lastDefined
          [fun k => if k = "evaluation_strategy" then some (1 : Nat) else none] k :=
  (get_training_args_spec
      [fun k => if k = "evaluation_strategy" then some (1 : Nat) else none]).1
    ⟨_, List.mem_cons_self _ _, by simp⟩

/-! ### Task-specific configuration

`use_task_specific_params` looks the task up in `TASK_MAPPING` (raising
`KeyError` on a miss, as a Python subscript does) and, when the dataset's
`task_specific_config` is not `None`, updates `model.config` with it;
`reset_config` assigns `model.config`.  The model object is a config
dictionary together with an arbitrary remainder `rest`, so the theorems can
state that nothing but `config` changes. -/

/-- The fields of a `TASK_MAPPING` entry that the module reads. -/
structure TaskDataset where
  task_specific_config : Option (PyDict String)

/-- A framework model object: its `config` attribute plus all of its other
state. -/
structure ConfigModel (α : Type) where
  config : PyDict String
  rest : α

/-- Embedding of `use_task_specific_params`, with `TASK_MAPPING` passed in
as the map `task_mapping`. -/
def use_task_specific_params {α : Type} (task_mapping : String → Option TaskDataset)
    (model : ConfigModel α) (task : String) : Except String (ConfigModel α) :=
  match task_mapping task with
  | none => Except.error "KeyError"
  | some task_dataset =>
    match task_dataset.task_specific_config with
    | none => Except.ok model
    | some cfg => Except.ok { model with config := dictUpdate model.config cfg }

/-- Embedding of `reset_config`. -/
def reset_config {α : Type} (model : ConfigModel α) (config : PyDict String) :
    ConfigModel α :=
  { model with config := config }

/-- C10: for a task present in the mapping, `use_task_specific_params`
leaves the model entirely unchanged when the task-specific config is `None`
and otherwise changes only `config`, by a single `update`; `reset_config`
changes only `config`, setting it to the provided value. -/
theorem use_task_specific_params_spec {α : Type}
    (task_mapping : String → Option TaskDataset) (model : ConfigModel α)
    (task : String) (td : TaskDataset) (h : task_mapping task = some td) :
    (td.task_specific_config = none →
      use_task_specific_params task_mapping model task = Except.ok model) ∧
    (∀ cfg, td.task_specific_config = some cfg →
      use_task_specific_params task_mapping model task =
        Except.ok { model with config := dictUpdate model.config cfg }) ∧
    (∀ c, reset_config model c = { model with config := c }) ∧
    (∀ c, (reset_config model c).rest = model.rest) := by
  refine ⟨?_, ?_, fun c => rfl, fun c => rfl⟩
  · intro hn
    simp [use_task_specific_params, h, hn]
  · intro cfg hc
    simp [use_task_specific_params, h, hc]

/-- C10 witness: a mapping holding one task without a task-specific config
leaves the model untouched. -/
theorem use_task_specific_params_witness :
    use_task_specific_params
        (fun t => if t = "squad" then some ⟨none⟩ else none)
        ⟨fun _ => none, (0 : Nat)⟩ "squad" =
      Except.ok ⟨fun _ => none, (0 : Nat)⟩ :=
  (use_task_specific_params_spec
      (fun t => if t = "squad" then some ⟨none⟩ else none)
      ⟨fun _ => none, (0 : Nat)⟩ "squad" ⟨none⟩ (by simp)).1 rfl

/-! ### Parameter freezing

The framework model is embedded as the list of its parameters.  Each
parameter carries its `requires_grad` flag together with the facts the
Python code queries: whether the parameter sits inside a submodule that is
an instance of `AdapterController`, `MetaAdapterController`,
`AdapterLayersHyperNetController`, `T5LayerNorm` or `LayerNormHyperNet`,
whether it belongs to `model.task_embedding_controller` (and to its
`task_to_embeddings`), to `model.lm_head`, to `model.get_encoder()`, and
whether it is an embedding parameter.  The branches of `freezing_params`
are each a map over this parameter list. -/

/-- A model parameter with its gradient flag and location tags. -/
structure Param where
  requires_grad : Bool
  in_adapter_controller : Bool
  in_meta_adapter_controller : Bool
  in_layers_hyper_net_controller : Bool
  in_task_embedding_controller : Bool
  in_task_to_embeddings : Bool
  in_lm_head : Bool
  in_encoder : Bool
  in_t5_layer_norm : Bool
  in_layer_norm_hyper_net : Bool
  is_embedding : Bool
  deriving DecidableEq, Repr

/-- A framework model: its parameters, and whether
`model.task_embedding_controller.task_to_embeddings` is a plain `dict`. -/
structure Model where
  params : List Param
  task_to_embeddings_is_dict : Bool
  deriving DecidableEq, Repr

/-- The fields of `training_args` read by `freezing_params`. -/
structure TrainingArguments where
  train_adapters : Bool
  deriving DecidableEq, Repr

/-- The fields of `model_args` read by `freezing_params`. -/
structure ModelArguments where
  freeze_model : Bool
  freeze_model_but_lm_head : Bool
  freeze_embeds : Bool
  freeze_encoder : Bool
  freeze_model_but_task_embeddings : Bool
  unfreeze_lm_head : Bool
  unfreeze_layer_norms : Bool
  deriving DecidableEq, Repr

/-- The fields of `adapter_args` read by `freezing_params`. -/
structure AdapterArguments where
  adapter_config_name : String
  unique_hyper_net : Bool
  conditional_layer_norm_for_T5 : Bool
  deriving DecidableEq, Repr

/-- Sets `requires_grad` to `value` on every parameter selected by `sel`;
every loop of `freezing_params` is an instance of this. -/
def setGrad (sel : Param → Bool) (value : Bool) (m : Model) : Model :=
  { m with params := m.params.map fun p =>
      if sel p then { p with requires_grad := value } else p }

/-- Modelled from the spec: `third_party.utils.freeze_params` (imported by
the module but not part of the sources) sets `requires_grad` to `False` on
every parameter of the module it is given; here, on the whole model. -/
def freeze_params (m : Model) : Model :=
  setGrad (fun _ => true) false m

/-- Modelled from the spec: `third_party.utils.freeze_embeds` sets
`requires_grad` to `False` on the embedding parameters of the model. -/
def freeze_embeds (m : Model) : Model :=
  setGrad (fun p => p.is_embedding) false m

/-- Modelled from the spec: `third_party.utils.assert_all_frozen` applied to
`model.get_encoder()` asserts that every encoder parameter has
`requires_grad = False`. -/
def assert_all_frozen_encoder (m : Model) : Bool :=
  (m.params.filter fun p => p.in_encoder).all fun p => !p.requires_grad

/-- The `training_args.train_adapters` branch of `freezing_params`: freeze
everything, unfreeze the parameters of `MetaAdapterController` and
`AdapterController` submodules, then the task-embedding controller when the
adapter config is `meta-adapter`, then `AdapterLayersHyperNetController`
and `AdapterController` submodules when `unique_hyper_net` is set. -/
def trainAdaptersStep (t : TrainingArguments) (aa : AdapterArguments) (m : Model) : Model :=
  if t.train_adapters then
    let m1 := freeze_params m
    let m2 := setGrad
      (fun p => p.in_meta_adapter_controller || p.in_adapter_controller) true m1
    let m3 :=
      if aa.adapter_config_name = "meta-adapter" then
        setGrad (fun p => p.in_task_embedding_controller) true m2
      else m2
    if aa.unique_hyper_net then
      setGrad
        (fun p => p.in_layers_hyper_net_controller || p.in_adapter_controller) true m3
    else m3
  else m

/-- The state of the model after the branches preceding the
`freeze_encoder` branch of `freezing_params`. -/
def preEncoderState (m : Model) (t : TrainingArguments) (ma : ModelArguments)
    (aa : AdapterArguments) : Model :=
  let m1 := trainAdaptersStep t aa m
  let m2 := if ma.freeze_model then freeze_params m1 else m1
  let m3 :=
    if ma.freeze_model_but_lm_head then
      setGrad (fun p => p.in_lm_head) true (freeze_params m2)
    else m2
  if ma.freeze_embeds then freeze_embeds m3 else m3

/-- The `freeze_encoder` branch: freeze the encoder parameters, then run
`assert_all_frozen(model.get_encoder())`, raising `AssertionError` when the
assertion fails. -/
def freezeEncoderStep (flag : Bool) (m : Model) : Except String Model :=
  if flag then
    let m1 := setGrad (fun p => p.in_encoder) false m
    if assert_all_frozen_encoder m1 then Except.ok m1
    else Except.error "AssertionError"
  else Except.ok m

/-- The branches of `freezing_params` after the `freeze_encoder` branch:
`freeze_model_but_task_embeddings`, `unfreeze_lm_head`,
`unfreeze_layer_norms` and `conditional_layer_norm_for_T5`. -/
def postEncoderSteps (ma : ModelArguments) (aa : AdapterArguments) (m : Model) : Model :=
  let m1 :=
    if ma.freeze_model_but_task_embeddings then
      let mf := freeze_params m
      if aa.adapter_config_name = "meta-adapter" && !(mf.task_to_embeddings_is_dict) then
        setGrad (fun p => p.in_task_to_embeddings) true mf
      else mf
    else m
  let m2 := if ma.unfreeze_lm_head then setGrad (fun p => p.in_lm_head) true m1 else m1
  let m3 :=
    if ma.unfreeze_layer_norms then setGrad (fun p => p.in_t5_layer_norm) true m2 else m2
  if aa.conditional_layer_norm_for_T5 then
    setGrad (fun p => p.in_layer_norm_hyper_net) true m3
  else m3

/-- Embedding of `freezing_params`: the conditional branches in source
order; only the `assert_all_frozen` call can raise. -/
def freezing_params (m : Model) (t : TrainingArguments) (ma : ModelArguments)
    (aa : AdapterArguments) : Except String Model :=
  match freezeEncoderStep ma.freeze_encoder (preEncoderState m t ma aa) with
  | Except.error e => Except.error e
  | Except.ok m5 => Except.ok (postEncoderSteps ma aa m5)

/-- The unfreezing condition stated by the claim for the adapter-training
configuration: the parameter lies in an `AdapterController` or
`MetaAdapterController` submodule, or in the task-embedding controller when
the adapter config is `meta-adapter`, or in an
`AdapterLayersHyperNetController` submodule when `unique_hyper_net` is set. -/
def adaptersUnfrozen (aa : AdapterArguments) (p : Param) : Bool :=
  p.in_meta_adapter_controller || p.in_adapter_controller ||
    (decide (aa.adapter_config_name = "meta-adapter") && p.in_task_embedding_controller) ||
    (aa.unique_hyper_net && p.in_layers_hyper_net_controller)

lemma trainAdaptersStep_eq (t : TrainingArguments) (aa : AdapterArguments) (m : Model)
    (h1 : t.train_adapters = true) :
    trainAdaptersStep t aa m =
      { m with params := m.params.map fun p =>
          { p with requires_grad := adaptersUnfrozen aa p } } := by
  cases m with
  | mk ps dflag =>
    by_cases hc : aa.adapter_config_name = "meta-adapter" <;>
      cases hu : aa.unique_hyper_net <;>
        · simp only [trainAdaptersStep, h1, hc, hu, freeze_params, setGrad,
            if_true, if_false, ite_true, ite_false, List.map_map, Model.mk.injEq,
            and_true, true_and, Bool.false_eq_true]
          refine List.map_congr_left ?_
          intro p _
          rcases p with ⟨g, a1, a2, a3, a4, a5, a6, a7, a8, a9, a10⟩
          cases a1 <;> cases a2 <;> cases a3 <;> cases a4 <;>
            simp [adaptersUnfrozen, hc, hu]

/-- The claim for C4 as stated: with `train_adapters` set and only the five
listed freeze flags required to be clear, every parameter of the resulting
model is unfrozen exactly when `adaptersUnfrozen` holds of it. -/
def trainAdaptersClaim : Prop :=
  ∀ (m : Model) (t : TrainingArguments) (ma : ModelArguments) (aa : AdapterArguments)
    (m' : Model),
    t.train_adapters = true → ma.freeze_model = false →
    ma.freeze_model_but_lm_head = false → ma.freeze_embeds = false →
    ma.freeze_encoder = false → ma.freeze_model_but_task_embeddings = false →
    freezing_params m t ma aa = Except.ok m' →
    ∀ q ∈ m'.params, (q.requires_grad = true ↔ adaptersUnfrozen aa q = true)

/-- A parameter of `model.lm_head` belonging to no adapter submodule. -/
def lmHeadParam : Param :=
  ⟨false, false, false, false, false, false, true, false, false, false, false⟩

/-- C4 counterexample: the claim's hypotheses say nothing about
`model_args.unfreeze_lm_head`; with `train_adapters` set, all five listed
freeze flags clear, and `unfreeze_lm_head` set, the `lm_head` parameter ends
up with `requires_grad = True` although it lies in no adapter submodule, so
the claimed equivalence fails. -/
theorem trainAdapters_claim_false : ¬ trainAdaptersClaim := by
  intro h
  have h2 := h ⟨[lmHeadParam], false⟩ ⟨true⟩
    ⟨false, false, false, false, false, true, false⟩ ⟨"", false, false⟩
    ⟨[{ lmHeadParam with requires_grad := true }], false⟩
    rfl rfl rfl rfl rfl rfl (by decide)
  have h3 := h2 { lmHeadParam with requires_grad := true } (by decide)
  revert h3
  decide

/-- C4 (amended): when `training_args.train_adapters` is set and every other
flag consulted by `freezing_params` — the five freeze flags listed by the
claim together with `unfreeze_lm_head`, `unfreeze_layer_norms` and
`conditional_layer_norm_for_T5` — is clear, a parameter ends up with
`requires_grad = True` exactly when it lies in an `AdapterController` or
`MetaAdapterController` submodule, or in the task-embedding controller when
the adapter config is `meta-adapter`, or in an
`AdapterLayersHyperNetController` submodule when `unique_hyper_net` is set;
every other parameter is frozen. -/
theorem freezing_params_train_adapters (m : Model) (t : TrainingArguments)
    (ma : ModelArguments) (aa : AdapterArguments)
    (h1 : t.train_adapters = true) (h2 : ma.freeze_model = false)
    (h3 : ma.freeze_model_but_lm_head = false) (h4 : ma.freeze_embeds = false)
    (h5 : ma.freeze_encoder = false) (h6 : ma.freeze_model_but_task_embeddings = false)
    (h7 : ma.unfreeze_lm_head = false) (h8 : ma.unfreeze_layer_norms = false)
    (h9 : aa.conditional_layer_norm_for_T5 = false) :
    freezing_params m t ma aa = Except.ok
      { m with params := m.params.map fun p =>
          { p with requires_grad := adaptersUnfrozen aa p } } := by
  have hpre : preEncoderState m t ma aa = trainAdaptersStep t aa m := by
    simp [preEncoderState, h2, h3, h4]
  have hpost : ∀ x, postEncoderSteps ma aa x = x := by
    intro x
    simp [postEncoderSteps, h6, h7, h8, h9]
  rw [freezing_params, freezeEncoderStep, h5]
  simp only [Bool.false_eq_true, if_false, ite_false, hpost, hpre]
  rw [trainAdaptersStep_eq t aa m h1]

/-- C4 witness: the amended theorem applied to a two-parameter model (one
adapter-controller parameter, one `lm_head` parameter) with all hypotheses
discharged. -/
theorem freezing_params_train_adapters_witness :
    freezing_params
        ⟨[⟨true, true, false, false, false, false, false, false, false, false, false⟩,
          lmHeadParam], false⟩
        ⟨true⟩ ⟨false, false, false, false, false, false, false⟩ ⟨"", false, false⟩ =
      Except.ok
        ⟨[⟨true, true, false, false, false, false, false, false, false, false, false⟩,
            lmHeadParam].map (fun p =>
              { p with requires_grad := adaptersUnfrozen ⟨"", false, false⟩ p }),
          false⟩ :=
  freezing_params_train_adapters
    ⟨[⟨true, true, false, false, false, false, false, false, false, false, false⟩,
      lmHeadParam], false⟩
    ⟨true⟩ ⟨false, false, false, false, false, false, false⟩ ⟨"", false, false⟩
    rfl rfl rfl rfl rfl rfl rfl rfl rfl

lemma setGrad_encoder_frozen (m : Model) :
    ∀ q ∈ (setGrad (fun p => p.in_encoder) false m).params,
      q.in_encoder = true → q.requires_grad = false := by
  intro q hq henc
  rcases List.mem_map.mp hq with ⟨p, _, hp⟩
  by_cases h : p.in_encoder = true
  · rw [← hp]
    simp [h]
  · rw [← hp] at henc
    simp [h] at henc

lemma assert_all_frozen_encoder_after_freeze (m : Model) :
    assert_all_frozen_encoder (setGrad (fun p => p.in_encoder) false m) = true := by
  rw [assert_all_frozen_encoder, List.all_eq_true]
  intro p hp
  rcases List.mem_filter.mp hp with ⟨hmem, henc⟩
  have := setGrad_encoder_frozen m p hmem henc
  simp [this]

lemma freezeEncoderStep_never_fails (flag : Bool) (m : Model) :
    ∃ m', freezeEncoderStep flag m = Except.ok m' := by
  cases flag with
  | false => exact ⟨m, rfl⟩
  | true =>
    refine ⟨setGrad (fun p => p.in_encoder) false m, ?_⟩
    simp [freezeEncoderStep, assert_all_frozen_encoder_after_freeze]

/-- C5: with `model_args.freeze_encoder` set, the branch first sets
`requires_grad = False` on every encoder parameter, the immediately
following `assert_all_frozen(model.get_encoder())` then succeeds, and
`freezing_params` returns normally. -/
theorem freezing_params_freeze_encoder_safe (m : Model) (t : TrainingArguments)
    (ma : ModelArguments) (aa : AdapterArguments) (h : ma.freeze_encoder = true) :
    (∀ q ∈ (setGrad (fun p => p.in_encoder) false (preEncoderState m t ma aa)).params,
      q.in_encoder = true → q.requires_grad = false) ∧
    freezeEncoderStep ma.freeze_encoder (preEncoderState m t ma aa) =
      Except.ok (setGrad (fun p => p.in_encoder) false (preEncoderState m t ma aa)) ∧
    (∃ m', freezing_params m t ma aa = Except.ok m') := by
  refine ⟨setGrad_encoder_frozen _, ?_, ?_⟩
  · rw [h]
    simp [freezeEncoderStep, assert_all_frozen_encoder_after_freeze]
  · rcases freezeEncoderStep_never_fails ma.freeze_encoder (preEncoderState m t ma aa)
      with ⟨m5, h5⟩
    exact ⟨postEncoderSteps ma aa m5, by rw [freezing_params, h5]⟩

/-- C5 witness: the theorem applied to a one-encoder-parameter model with
`freeze_encoder` set. -/
theorem freezing_params_freeze_encoder_witness :
    ∃ m', freezing_params
        ⟨[⟨true, false, false, false, false, false, false, true, false, false, false⟩],
          false⟩
        ⟨false⟩ ⟨false, false, false, true, false, false, false⟩ ⟨"", false, false⟩ =
      Except.ok m' :=
  (freezing_params_freeze_encoder_safe
      ⟨[⟨true, false, false, false, false, false, false, true, false, false, false⟩],
        false⟩
      ⟨false⟩ ⟨false, false, false, true, false, false, false⟩ ⟨"", false, false⟩
      rfl).2.2

/-- C7: every routine of the module terminates on every input: each
embedded function is total, so every call runs to completion or raises,
yielding a value of its result type. -/
theorem all_utilities_terminate :
    ∀ (path_exists : String → Bool) (dir split name b task : String)
      (metrics jd : List (String × String)) (gb : Option String)
      (l : List (PyDict Nat)) (entries : List String) (sys : String → Int)
      (m : Model) (t : TrainingArguments) (ma : ModelArguments) (aa : AdapterArguments)
      (task_mapping : String → Option TaskDataset) (cm : ConfigModel Nat)
      (cfg : PyDict String),
      (∃ r, create_dir path_exists dir = r) ∧
      (∃ r, handle_metrics split metrics dir gb = r) ∧
      (∃ r, save_json_file jd name dir gb = r) ∧
      (∃ r, get_training_args l = r) ∧
      (∃ r, get_last_checkpoint_path dir entries = r) ∧
      (∃ r, upload sys dir b = r) ∧
      (∃ r, use_task_specific_params task_mapping cm task = r) ∧
      (∃ r, reset_config cm cfg = r) ∧
      (∃ r, freezing_params m t ma aa = r) := by
  intros
  exact ⟨⟨_, rfl⟩, ⟨_, rfl⟩, ⟨_, rfl⟩, ⟨_, rfl⟩, ⟨_, rfl⟩, ⟨_, rfl⟩, ⟨_, rfl⟩,
    ⟨_, rfl⟩, ⟨_, rfl⟩⟩

end SeqUtils
